import Mathlib

/-!
Location: two-wheel dead-reckoning position tracker

Shallow embedding of `src/Location.cpp` / `src/Location.h`.

* The definitions are polymorphic in the number type `R` and in the three things
  the code takes from `math.h` (`cos`, `sin`, `M_PI`); they only use the
  operations `+ - * /`, negation and the literals of the source, so they run as
  they stand on `ℚ`.
* At `R := ℝ` the C++ `double` and `float` members are idealised as real numbers:
  exact arithmetic, no rounding, all values finite.  This is the arithmetic of
  the theorems about trackers whose divisor on line 31 is not zero, stated with
  `Real.cos`, `Real.sin` and, where a difference of rounding size between `M_PI`
  and `π` does not matter, `Real.pi`.
* At `R := Flt ℝ` a value is a real number or non-finite; a division by zero
  gives a non-finite value, as in the code.  This is the arithmetic of the
  theorems about a zero divisor.
* `M_PI_double` is the exact value of the `double` constant `M_PI`; it is used
  where the difference between `M_PI` and `π` decides the outcome.
* The two encoder objects `ec0_`, `ec1_` are external devices.  The values that
  `ec0_->getRad()` and `ec1_->getRad()` return inside one `calXY` call are
  arguments `ec_rad0`, `ec_rad1` of the embedded `calXY`.
* Member functions are state passing functions on the record of data members.
-/

/-- Data members of `class Location` (Location.h 148-160).  The array
`old_rad[2]` is the two fields `old_rad0`, `old_rad1`; the encoder pointers
`ec0_`, `ec1_` carry no numeric state of the tracker and are left out. -/
structure Location (R : Type) where
  x_ : R
  y_ : R
  coef_x_ : R
  coef_y_ : R
  start_x : R
  start_y : R
  r_sokuteiwheel_ : R
  theta0_ : R
  theta1_ : R
  old_rad0 : R
  old_rad1 : R
  keisuu : R

set_option linter.dupNamespace false

section Code

variable {R : Type} [Add R] [Sub R] [Mul R] [Neg R] [Div R] [Zero R] [One R] [NatCast R]

/-- Divisor of the quotient on Location.cpp line 31, as a function of the two
mounting angles in radians. -/
def Location.keisuuDivisor (cos sin : R → R) (theta0_ theta1_ : R) : R :=
  cos theta0_ * sin theta1_ - sin theta0_ * cos theta1_

/-- Location.cpp line 45 (and 46): travel of one measuring wheel since the last call. -/
def Location.calXY_d (r_sokuteiwheel_ ec_rad old_rad : R) : R :=
  r_sokuteiwheel_ * (ec_rad - old_rad)

/-- Location.cpp line 49: body-frame x displacement from the two wheel travels. -/
def Location.calXY_dx (sin : R → R) (s : Location R) (d0 d1 : R) : R :=
  s.keisuu * (d0 * sin s.theta1_ - d1 * sin s.theta0_)

/-- Location.cpp line 50: body-frame y displacement from the two wheel travels. -/
def Location.calXY_dy (cos : R → R) (s : Location R) (d0 d1 : R) : R :=
  s.keisuu * (-d0 * cos s.theta1_ + d1 * cos s.theta0_)

/-- `Location::calXY` (Location.cpp 35-59).  `ec_rad0`, `ec_rad1` are the values
read from the two encoders on lines 41-42. -/
def Location.calXY (cos sin : R → R) (s : Location R) (ec_rad0 ec_rad1 theta_ : R) :
    Location R :=
  let d0 := Location.calXY_d s.r_sokuteiwheel_ ec_rad0 s.old_rad0
  let d1 := Location.calXY_d s.r_sokuteiwheel_ ec_rad1 s.old_rad1
  let dx := Location.calXY_dx sin s d0 d1
  let dy := Location.calXY_dy cos s d0 d1
  { s with
    x_ := s.x_ + (dx * cos theta_ - dy * sin theta_)
    y_ := s.y_ + (dx * sin theta_ + dy * cos theta_)
    old_rad0 := ec_rad0
    old_rad1 := ec_rad1 }

/-- `Location::getX` (Location.cpp 61-64): the returned value together with the
state after the call (the member function is not `const`). -/
def Location.getX (s : Location R) : R × Location R :=
  (s.start_x + s.x_ * s.coef_x_, s)

/-- `Location::getY` (Location.cpp 66-69): the returned value together with the
state after the call. -/
def Location.getY (s : Location R) : R × Location R :=
  (s.start_y + s.y_ * s.coef_y_, s)

/-- `Location::setStartLocation` (Location.cpp 71-75). -/
def Location.setStartLocation (s : Location R) (x y : R) : Location R :=
  { s with start_x := x, start_y := y }

/-- `Location::setCoef` (Location.cpp 77-81). -/
def Location.setCoef (s : Location R) (coef_x coef_y : R) : Location R :=
  { s with coef_x_ := coef_x, coef_y_ := coef_y }

/-- One call of a state changing member function on an existing tracker, with
its arguments; for `calXY` also the two encoder values read inside the call. -/
inductive Call (R : Type) where
  | calXY (ec_rad0 ec_rad1 theta_ : R)
  | setStartLocation (x y : R)
  | setCoef (coef_x coef_y : R)

/-- Effect of one call on the tracker. -/
def Location.call (cos sin : R → R) (s : Location R) : Call R → Location R
  | Call.calXY ec_rad0 ec_rad1 theta_ => Location.calXY cos sin s ec_rad0 ec_rad1 theta_
  | Call.setStartLocation x y => Location.setStartLocation s x y
  | Call.setCoef coef_x coef_y => Location.setCoef s coef_x coef_y

/-- Effect of a finite sequence of calls, earliest first. -/
def Location.run (cos sin : R → R) (s : Location R) (cs : List (Call R)) : Location R :=
  cs.foldl (Location.call cos sin) s

/-- The constructor `Location::Location` (Location.cpp 6-32).  `theta0`, `theta1`
are the mounting angles in degrees; `M_PI` is the constant of `math.h`.  The
quotient of line 31 is taken in `R`: at `R := Flt ℝ` a zero divisor gives the
non-finite value that the code stores, at `R := ℝ` the quotient stands for the
code's value only when the divisor is not zero. -/
def Location.Location (cos sin : R → R) (M_PI : R) (r_sokuteiWheel theta0 theta1 : R) :
    Location R :=
  let theta0_ := theta0 * M_PI / 180
  let theta1_ := theta1 * M_PI / 180
  { x_ := 0
    y_ := 0
    coef_x_ := 1
    coef_y_ := 1
    start_x := 0
    start_y := 0
    old_rad0 := 0
    old_rad1 := 0
    r_sokuteiwheel_ := r_sokuteiWheel
    theta0_ := theta0_
    theta1_ := theta1_
    keisuu := 1 / Location.keisuuDivisor cos sin theta0_ theta1_ }

/-- Outcome of a constructor call.  The body of `Location::Location`
(Location.cpp 6-32) has no `throw`, no early exit and sets no validity flag: every
call ends with a constructed object, so the outcome is never `none`. -/
def constructOutcome (cos sin : R → R) (M_PI : R) (r_sokuteiWheel theta0 theta1 : R) :
    Option (Location R) :=
  some (Location.Location cos sin M_PI r_sokuteiWheel theta0 theta1)

end Code

/-! ## Non-finite values

`Flt R` adds to the numbers of `R` one value for the non-finite results of
floating-point arithmetic.  The definitions above, taken at `Flt R`, give what
the code computes when a division by zero occurs; on finite values they agree
with the definitions taken at `R` (`calXY_finiteState`, `run_finiteState`,
`ctor_finiteState` below).  Arithmetic on finite values stays exact. -/

/-- A value of a C++ floating-point variable: a finite number, or a non-finite
value (an infinity or a NaN, which are not told apart). -/
inductive Flt (R : Type) where
  | finite (x : R)
  | nonFinite

section NonFinite

variable {R : Type}

/-- A function of `math.h` on floating-point values: `cos` and `sin` of a finite
argument are finite, of an infinity or a NaN they are NaN. -/
def Flt.lift (f : R → R) : Flt R → Flt R
  | Flt.finite x => Flt.finite (f x)
  | Flt.nonFinite => Flt.nonFinite

/-- Sum: a non-finite operand gives a non-finite result. -/
def Flt.add [Add R] : Flt R → Flt R → Flt R
  | Flt.finite x, Flt.finite y => Flt.finite (x + y)
  | _, _ => Flt.nonFinite

/-- Difference: a non-finite operand gives a non-finite result. -/
def Flt.sub [Sub R] : Flt R → Flt R → Flt R
  | Flt.finite x, Flt.finite y => Flt.finite (x - y)
  | _, _ => Flt.nonFinite

/-- Product: a non-finite operand gives a non-finite result (an infinity times
zero is NaN). -/
def Flt.mul [Mul R] : Flt R → Flt R → Flt R
  | Flt.finite x, Flt.finite y => Flt.finite (x * y)
  | _, _ => Flt.nonFinite

/-- Negation. -/
def Flt.neg [Neg R] : Flt R → Flt R
  | Flt.finite x => Flt.finite (-x)
  | Flt.nonFinite => Flt.nonFinite

/-- Quotient: a finite number divided by zero is non-finite (an infinity, or NaN
for `0 / 0`).  A non-finite operand gives a non-finite result; this is exact for
a NaN operand and for an infinite dividend, and an infinite divisor does not
occur in `Location.cpp`: its divisors are the constant `180.0` and the divisor of
line 31, which is built from values of `cos` and `sin`. -/
def Flt.div [Div R] [Zero R] [DecidableEq R] : Flt R → Flt R → Flt R
  | Flt.finite x, Flt.finite y => if y = 0 then Flt.nonFinite else Flt.finite (x / y)
  | _, _ => Flt.nonFinite

instance [Add R] : Add (Flt R) := ⟨Flt.add⟩

instance [Sub R] : Sub (Flt R) := ⟨Flt.sub⟩

instance [Mul R] : Mul (Flt R) := ⟨Flt.mul⟩

instance [Neg R] : Neg (Flt R) := ⟨Flt.neg⟩

instance [Div R] [Zero R] [DecidableEq R] : Div (Flt R) := ⟨Flt.div⟩

instance [Zero R] : Zero (Flt R) := ⟨Flt.finite 0⟩

instance [One R] : One (Flt R) := ⟨Flt.finite 1⟩

instance [NatCast R] : NatCast (Flt R) := ⟨fun n => Flt.finite (n : R)⟩

/-- A tracker state all of whose members are finite, as a state over `Flt R`. -/
def finiteState (s : Location R) : Location (Flt R) :=
  { x_ := Flt.finite s.x_
    y_ := Flt.finite s.y_
    coef_x_ := Flt.finite s.coef_x_
    coef_y_ := Flt.finite s.coef_y_
    start_x := Flt.finite s.start_x
    start_y := Flt.finite s.start_y
    r_sokuteiwheel_ := Flt.finite s.r_sokuteiwheel_
    theta0_ := Flt.finite s.theta0_
    theta1_ := Flt.finite s.theta1_
    old_rad0 := Flt.finite s.old_rad0
    old_rad1 := Flt.finite s.old_rad1
    keisuu := Flt.finite s.keisuu }

/-- A call whose arguments and encoder readings are finite, as a call over `Flt R`. -/
def finiteCall : Call R → Call (Flt R)
  | Call.calXY ec_rad0 ec_rad1 theta_ =>
      Call.calXY (Flt.finite ec_rad0) (Flt.finite ec_rad1) (Flt.finite theta_)
  | Call.setStartLocation x y => Call.setStartLocation (Flt.finite x) (Flt.finite y)
  | Call.setCoef coef_x coef_y => Call.setCoef (Flt.finite coef_x) (Flt.finite coef_y)

/-- State, over `Flt R`, of the tracker constructed with the finite arguments
`r`, `a0`, `a1` (degrees) after the calls `cs`, whose arguments and readings
are finite; `M_PI` is the finite value of the constant of `math.h`. -/
def trackerAfter [Add R] [Sub R] [Mul R] [Neg R] [Div R] [Zero R] [One R] [NatCast R]
    [DecidableEq R] (cos sin : R → R) (M_PI r a0 a1 : R) (cs : List (Call R)) :
    Location (Flt R) :=
  Location.run (Flt.lift cos) (Flt.lift sin)
    (Location.Location (Flt.lift cos) (Flt.lift sin) (Flt.finite M_PI) (Flt.finite r)
      (Flt.finite a0) (Flt.finite a1))
    (cs.map finiteCall)

end NonFinite

/-- Value of the `double` constant `M_PI` of `math.h` (Location.cpp lines 28, 29):
the decimal `3.14159265358979323846` rounded to the nearest `double`,
`0x1.921fb54442d18p+1`, that is `884279719003555 / 2^48`. -/
def M_PI_double : ℚ := 884279719003555 / 281474976710656

/-! ## Specification side definitions

These follow the words of the specification, not the code, and are what the
code is compared with. -/

section SpecSide

variable {R : Type} [Field R]

/-- Arguments of a `setStartLocation` call, nothing for another call. -/
def Call.startLocation? : Call R → Option (R × R)
  | Call.setStartLocation x y => some (x, y)
  | _ => none

/-- Arguments of a `setCoef` call, nothing for another call. -/
def Call.coef? : Call R → Option (R × R)
  | Call.setCoef coef_x coef_y => some (coef_x, coef_y)
  | _ => none

/-- Origin given by the most recent `setStartLocation` of a call sequence
(earliest first), `(0, 0)` if there is none. -/
def specOrigin (cs : List (Call R)) : R × R :=
  ((cs.filterMap Call.startLocation?).getLast?).getD (0, 0)

/-- Calibration pair given by the most recent `setCoef` of a call sequence,
`(1, 1)` if there is none. -/
def specCalib (cs : List (Call R)) : R × R :=
  ((cs.filterMap Call.coef?).getLast?).getD (1, 1)

/-- Transform coefficient of the spec's data model for mounting angles `m0`,
`m1` in radians. -/
def specTransformCoefficient (cos sin : R → R) (m0 m1 : R) : R :=
  1 / (cos m0 * sin m1 - sin m0 * cos m1)

/-- Field-frame increment of one update (spec 4.1, steps 2 to 4) for a tracker
with wheel radius `r`, transform coefficient `k` and mounting angles `m0`, `m1`
in radians, when the previous readings were `(p0, p1)`, the current readings
are `(e0, e1)` and the heading is `h`. -/
def specFieldIncrement (cos sin : R → R) (r k m0 m1 p0 p1 e0 e1 h : R) : R × R :=
  let w0 := r * (e0 - p0)
  let w1 := r * (e1 - p1)
  let dx := k * (w0 * sin m1 - w1 * sin m0)
  let dy := k * (-w0 * cos m1 + w1 * cos m0)
  (dx * cos h - dy * sin h, dx * sin h + dy * cos h)

/-- Field-frame increments of the `calXY` calls of a call sequence, in call
order; `(p0, p1)` are the readings of the update before the sequence. -/
def specFieldIncrements (cos sin : R → R) (r k m0 m1 : R) :
    R → R → List (Call R) → List (R × R)
  | _, _, [] => []
  | p0, p1, Call.calXY e0 e1 h :: cs =>
      specFieldIncrement cos sin r k m0 m1 p0 p1 e0 e1 h ::
        specFieldIncrements cos sin r k m0 m1 e0 e1 cs
  | p0, p1, Call.setStartLocation _ _ :: cs => specFieldIncrements cos sin r k m0 m1 p0 p1 cs
  | p0, p1, Call.setCoef _ _ :: cs => specFieldIncrements cos sin r k m0 m1 p0 p1 cs

/-- Componentwise sum of a list of plane vectors. -/
def specVectorSum (vs : List (R × R)) : R × R :=
  ((vs.map Prod.fst).sum, (vs.map Prod.snd).sum)

/-- Whether a call is a `calXY` call. -/
def Call.isCalXY : Call R → Bool
  | Call.calXY _ _ _ => true
  | _ => false

/-- The two encoder readings taken by a `calXY` call, nothing for another call. -/
def Call.readings? : Call R → Option (R × R)
  | Call.calXY ec_rad0 ec_rad1 _ => some (ec_rad0, ec_rad1)
  | _ => none

/-- Encoder readings taken by the most recent `calXY` call of a call sequence
(earliest first), `(0, 0)` if there is none. -/
def specLastReadings (cs : List (Call R)) : R × R :=
  ((cs.filterMap Call.readings?).getLast?).getD (0, 0)

/-- A sequence of `calXY` calls that all use the heading `h`, one call for each
pair of encoder readings, in order. -/
def calXYCalls (h : R) (es : List (R × R)) : List (Call R) :=
  es.map (fun e => Call.calXY e.1 e.2 h)

end SpecSide

/-! ## Auxiliary lemmas -/

section Aux

variable {R : Type} [Field R]

theorem run_nil (cos sin : R → R) (s : Location R) : Location.run cos sin s [] = s := rfl

theorem run_cons (cos sin : R → R) (s : Location R) (c : Call R) (cs : List (Call R)) :
    Location.run cos sin s (c :: cs) = Location.run cos sin (Location.call cos sin s c) cs := rfl

/-- No call changes the wheel radius, the mounting angles or the transform coefficient. -/
theorem call_config (cos sin : R → R) (s : Location R) (c : Call R) :
    (Location.call cos sin s c).r_sokuteiwheel_ = s.r_sokuteiwheel_ ∧
    (Location.call cos sin s c).theta0_ = s.theta0_ ∧
    (Location.call cos sin s c).theta1_ = s.theta1_ ∧
    (Location.call cos sin s c).keisuu = s.keisuu := by
  cases c <;> exact ⟨rfl, rfl, rfl, rfl⟩

/-- No sequence of calls changes the wheel radius, the mounting angles or the
transform coefficient. -/
theorem run_config (cos sin : R → R) (cs : List (Call R)) (s : Location R) :
    (Location.run cos sin s cs).r_sokuteiwheel_ = s.r_sokuteiwheel_ ∧
    (Location.run cos sin s cs).theta0_ = s.theta0_ ∧
    (Location.run cos sin s cs).theta1_ = s.theta1_ ∧
    (Location.run cos sin s cs).keisuu = s.keisuu := by
  induction cs generalizing s with
  | nil => exact ⟨rfl, rfl, rfl, rfl⟩
  | cons c cs ih =>
    rw [run_cons]
    obtain ⟨h1, h2, h3, h4⟩ := ih (Location.call cos sin s c)
    obtain ⟨g1, g2, g3, g4⟩ := call_config cos sin s c
    exact ⟨h1.trans g1, h2.trans g2, h3.trans g3, h4.trans g4⟩

/-- The last element of a list with a default, after one more element in front. -/
theorem getLast?_getD_cons {α : Type} (a d : α) (l : List α) :
    ((a :: l).getLast?).getD d = (l.getLast?).getD a := by
  rw [List.getLast?_cons, Option.getD_some]

/-- The origin after a call sequence is the one of its last `setStartLocation`,
or the one before the sequence. -/
theorem run_start (cos sin : R → R) (cs : List (Call R)) (s : Location R) :
    ((Location.run cos sin s cs).start_x, (Location.run cos sin s cs).start_y) =
      ((cs.filterMap Call.startLocation?).getLast?).getD (s.start_x, s.start_y) := by
  induction cs generalizing s with
  | nil => rfl
  | cons c cs ih =>
    rw [run_cons, ih]
    cases c with
    | calXY e0 e1 h => rfl
    | setStartLocation x y =>
      simp only [List.filterMap_cons, Call.startLocation?, getLast?_getD_cons]
      rfl
    | setCoef cx cy => rfl

/-- The calibration pair after a call sequence is the one of its last `setCoef`,
or the one before the sequence. -/
theorem run_coef (cos sin : R → R) (cs : List (Call R)) (s : Location R) :
    ((Location.run cos sin s cs).coef_x_, (Location.run cos sin s cs).coef_y_) =
      ((cs.filterMap Call.coef?).getLast?).getD (s.coef_x_, s.coef_y_) := by
  induction cs generalizing s with
  | nil => rfl
  | cons c cs ih =>
    rw [run_cons, ih]
    cases c with
    | calXY e0 e1 h => rfl
    | setStartLocation x y => rfl
    | setCoef cx cy =>
      simp only [List.filterMap_cons, Call.coef?, getLast?_getD_cons]
      rfl

/-- The accumulated displacement after a call sequence is the one before it plus
the field-frame increments of the `calXY` calls of the sequence. -/
theorem run_accumulated (cos sin : R → R) (cs : List (Call R)) (s : Location R) :
    (Location.run cos sin s cs).x_ = s.x_ +
        (specVectorSum (specFieldIncrements cos sin s.r_sokuteiwheel_ s.keisuu s.theta0_
          s.theta1_ s.old_rad0 s.old_rad1 cs)).1 ∧
    (Location.run cos sin s cs).y_ = s.y_ +
        (specVectorSum (specFieldIncrements cos sin s.r_sokuteiwheel_ s.keisuu s.theta0_
          s.theta1_ s.old_rad0 s.old_rad1 cs)).2 := by
  induction cs generalizing s with
  | nil => simp [run_nil, specFieldIncrements, specVectorSum]
  | cons c cs ih =>
    rw [run_cons]
    obtain ⟨hx, hy⟩ := ih (Location.call cos sin s c)
    rw [hx, hy]
    cases c with
    | calXY e0 e1 h =>
      simp only [Location.call, Location.calXY, Location.calXY_d, Location.calXY_dx,
        Location.calXY_dy, specFieldIncrements, specFieldIncrement, specVectorSum,
        List.map_cons, List.sum_cons]
      constructor <;> ring
    | setStartLocation x y =>
      simp only [Location.call, Location.setStartLocation, specFieldIncrements]
      exact ⟨trivial, trivial⟩
    | setCoef cx cy =>
      simp only [Location.call, Location.setCoef, specFieldIncrements]
      exact ⟨trivial, trivial⟩

/-- The last-seen encoder angles after a call sequence are the readings of its
last `calXY` call, or the ones before the sequence. -/
theorem run_old_rad (cos sin : R → R) (cs : List (Call R)) (s : Location R) :
    ((Location.run cos sin s cs).old_rad0, (Location.run cos sin s cs).old_rad1) =
      ((cs.filterMap Call.readings?).getLast?).getD (s.old_rad0, s.old_rad1) := by
  induction cs generalizing s with
  | nil => rfl
  | cons c cs ih =>
    rw [run_cons, ih]
    cases c with
    | calXY e0 e1 h =>
      simp only [List.filterMap_cons, Call.readings?, getLast?_getD_cons]
      rfl
    | setStartLocation x y => rfl
    | setCoef cx cy => rfl

/-- A call that is not `calXY` leaves the accumulated displacement as it is. -/
theorem call_accumulated_of_not_calXY (cos sin : R → R) (s : Location R) (c : Call R)
    (hc : c.isCalXY = false) :
    (Location.call cos sin s c).x_ = s.x_ ∧ (Location.call cos sin s c).y_ = s.y_ := by
  cases c with
  | calXY e0 e1 h => simp [Call.isCalXY] at hc
  | setStartLocation x y => exact ⟨rfl, rfl⟩
  | setCoef cx cy => exact ⟨rfl, rfl⟩

/-- A call sequence without `calXY` leaves the accumulated displacement as it is. -/
theorem run_accumulated_of_no_calXY (cos sin : R → R) (cs : List (Call R)) (s : Location R)
    (hcs : cs.all (fun c => !c.isCalXY) = true) :
    (Location.run cos sin s cs).x_ = s.x_ ∧ (Location.run cos sin s cs).y_ = s.y_ := by
  induction cs generalizing s with
  | nil => exact ⟨rfl, rfl⟩
  | cons c cs ih =>
    rw [List.all_cons, Bool.and_eq_true] at hcs
    have hc : c.isCalXY = false := by simpa using hcs.1
    rw [run_cons]
    obtain ⟨hx, hy⟩ := ih (Location.call cos sin s c) hcs.2
    obtain ⟨gx, gy⟩ := call_accumulated_of_not_calXY cos sin s c hc
    exact ⟨hx.trans gx, hy.trans gy⟩

/-- Two `calXY` calls in a row with the same heading leave the tracker in the
state of the second call made alone. -/
theorem calXY_calXY_same_heading (cos sin : R → R) (s : Location R) (e0 e1 f0 f1 h : R) :
    Location.calXY cos sin (Location.calXY cos sin s e0 e1 h) f0 f1 h =
      Location.calXY cos sin s f0 f1 h := by
  simp only [Location.calXY, Location.calXY_d, Location.calXY_dx, Location.calXY_dy]
  congr 1 <;> ring

/-- A non-empty sequence of `calXY` calls with one heading leaves the tracker in
the state of a single call that reads the final readings. -/
theorem run_calXYCalls (cos sin : R → R) (h : R) (es : List (R × R)) (hne : es ≠ [])
    (s : Location R) :
    Location.run cos sin s (calXYCalls h es) =
      Location.calXY cos sin s (es.getLast hne).1 (es.getLast hne).2 h := by
  induction es generalizing s with
  | nil => exact absurd rfl hne
  | cons e es ih =>
    cases es with
    | nil => rfl
    | cons e2 es =>
      have hstep : Location.run cos sin s (calXYCalls h (e :: e2 :: es)) =
          Location.run cos sin (Location.calXY cos sin s e.1 e.2 h)
            (calXYCalls h (e2 :: es)) := rfl
      rw [hstep, ih (List.cons_ne_nil e2 es), calXY_calXY_same_heading]
      rfl

end Aux

/-! ## Claims -/

/-- C1: for a tracker built with mounting angles whose divisor
`cos θ0 * sin θ1 - sin θ0 * cos θ1` is not zero (in any state reachable from
construction) and for every pair of wheel travels `(d0, d1)`, the body-frame
displacement `(dx, dy)` of `calXY` satisfies `d0 = dx cos θ0 + dy sin θ0` and
`d1 = dx cos θ1 + dy sin θ1`, and it is the only pair that does. -/
theorem calXY_displacement_solves_wheel_system (r a0 a1 : ℝ) (cs : List (Call ℝ))
    (hdiv : Location.keisuuDivisor Real.cos Real.sin (a0 * Real.pi / 180)
      (a1 * Real.pi / 180) ≠ 0) (d0 d1 : ℝ) :
    let s := Location.run Real.cos Real.sin
      (Location.Location Real.cos Real.sin Real.pi r a0 a1) cs
    let dx := Location.calXY_dx Real.sin s d0 d1
    let dy := Location.calXY_dy Real.cos s d0 d1
    (d0 = dx * Real.cos s.theta0_ + dy * Real.sin s.theta0_ ∧
      d1 = dx * Real.cos s.theta1_ + dy * Real.sin s.theta1_) ∧
    ∀ x y : ℝ, d0 = x * Real.cos s.theta0_ + y * Real.sin s.theta0_ →
      d1 = x * Real.cos s.theta1_ + y * Real.sin s.theta1_ → x = dx ∧ y = dy := by
  intro s dx dy
  obtain ⟨-, h0, h1, hk⟩ := run_config Real.cos Real.sin cs
    (Location.Location Real.cos Real.sin Real.pi r a0 a1)
  have e0 : s.theta0_ = a0 * Real.pi / 180 := h0
  have e1 : s.theta1_ = a1 * Real.pi / 180 := h1
  have ek : s.keisuu = 1 / Location.keisuuDivisor Real.cos Real.sin (a0 * Real.pi / 180)
      (a1 * Real.pi / 180) := hk
  have hdx : dx = s.keisuu * (d0 * Real.sin s.theta1_ - d1 * Real.sin s.theta0_) := rfl
  have hdy : dy = s.keisuu * (-d0 * Real.cos s.theta1_ + d1 * Real.cos s.theta0_) := rfl
  rw [hdx, hdy, ek, e0, e1]
  unfold Location.keisuuDivisor at hdiv ⊢
  refine ⟨⟨?_, ?_⟩, ?_⟩
  · field_simp
    ring
  · field_simp
    ring
  · intro x y hx hy
    subst hx hy
    constructor
    · field_simp
      ring
    · field_simp
      ring

/-- The divisor of the transform coefficient for mounting angles 90 and 0 degrees. -/
theorem keisuuDivisor_90_0 :
    Location.keisuuDivisor Real.cos Real.sin (90 * Real.pi / 180) (0 * Real.pi / 180) = -1 := by
  have h90 : (90 : ℝ) * Real.pi / 180 = Real.pi / 2 := by ring
  simp [Location.keisuuDivisor, h90]

/-- Witness of C1: mounting angles 90 and 0 degrees, after one `calXY` call,
wheel travels `(3, 4)`. -/
theorem calXY_displacement_solves_wheel_system_witness :
    Location.keisuuDivisor Real.cos Real.sin (90 * Real.pi / 180) (0 * Real.pi / 180) ≠ 0 ∧
    (let s := Location.run Real.cos Real.sin
      (Location.Location Real.cos Real.sin Real.pi 19 90 0) [Call.calXY 1 2 0]
    let dx := Location.calXY_dx Real.sin s 3 4
    let dy := Location.calXY_dy Real.cos s 3 4
    (3 = dx * Real.cos s.theta0_ + dy * Real.sin s.theta0_ ∧
      4 = dx * Real.cos s.theta1_ + dy * Real.sin s.theta1_)) :=
  ⟨by rw [keisuuDivisor_90_0]; norm_num,
   (calXY_displacement_solves_wheel_system 19 90 0 [Call.calXY 1 2 0]
      (by rw [keisuuDivisor_90_0]; norm_num) 3 4).1⟩

/-- C2: in every state reachable from construction by a finite sequence of
`calXY`, `setStartLocation` and `setCoef` calls, `getX()` returns
`origin.x + sum.x * calib.x` and `getY()` returns `origin.y + sum.y * calib.y`,
where the origin is that of the most recent `setStartLocation` (or `(0, 0)`), the
calibration pair that of the most recent `setCoef` (or `(1, 1)`) and the sum is
taken over the field-frame increments of all `calXY` calls so far; these are the
values of the fields `start_x`, `start_y`, `coef_x_`, `coef_y_`, `x_`, `y_`, and
both getters leave the state as it is. -/
theorem getX_getY_origin_plus_calibrated_sum (r a0 a1 : ℝ) (cs : List (Call ℝ)) :
    let s := Location.run Real.cos Real.sin
      (Location.Location Real.cos Real.sin Real.pi r a0 a1) cs
    let acc := specVectorSum (specFieldIncrements Real.cos Real.sin r
      (specTransformCoefficient Real.cos Real.sin (a0 * Real.pi / 180) (a1 * Real.pi / 180))
      (a0 * Real.pi / 180) (a1 * Real.pi / 180) 0 0 cs)
    ((s.start_x, s.start_y) = specOrigin cs ∧ (s.coef_x_, s.coef_y_) = specCalib cs ∧
      (s.x_, s.y_) = acc) ∧
    (s.getX.1 = s.start_x + s.x_ * s.coef_x_ ∧ s.getY.1 = s.start_y + s.y_ * s.coef_y_) ∧
    (s.getX.1 = (specOrigin cs).1 + acc.1 * (specCalib cs).1 ∧
      s.getY.1 = (specOrigin cs).2 + acc.2 * (specCalib cs).2) ∧
    (s.getX.2 = s ∧ s.getY.2 = s) := by
  intro s acc
  have hstart : (s.start_x, s.start_y) = specOrigin cs :=
    run_start Real.cos Real.sin cs (Location.Location Real.cos Real.sin Real.pi r a0 a1)
  have hcoef : (s.coef_x_, s.coef_y_) = specCalib cs :=
    run_coef Real.cos Real.sin cs (Location.Location Real.cos Real.sin Real.pi r a0 a1)
  obtain ⟨hx, hy⟩ := run_accumulated Real.cos Real.sin cs
    (Location.Location Real.cos Real.sin Real.pi r a0 a1)
  have hx' : s.x_ = acc.1 := by
    rw [show s.x_ = _ from hx]
    simp [Location.Location, acc, specTransformCoefficient, Location.keisuuDivisor]
  have hy' : s.y_ = acc.2 := by
    rw [show s.y_ = _ from hy]
    simp [Location.Location, acc, specTransformCoefficient, Location.keisuuDivisor]
  have hacc : (s.x_, s.y_) = acc := Prod.ext hx' hy'
  refine ⟨⟨hstart, hcoef, hacc⟩, ⟨rfl, rfl⟩, ⟨?_, ?_⟩, ⟨rfl, rfl⟩⟩
  · rw [← hstart, ← hcoef, ← hacc]
    rfl
  · rw [← hstart, ← hcoef, ← hacc]
    rfl

/-- C3: one `calXY` call with encoder readings `(e0, e1)` and heading `h` adds
`dx cos h - dy sin h` to `x_` and `dx sin h + dy cos h` to `y_`, with
`d_i = radius * (e_i - old_rad[i])`, `dx = keisuu * (d0 sin θ1 - d1 sin θ0)`,
`dy = keisuu * (-d0 cos θ1 + d1 cos θ0)`; the origin, the calibration pair, the
wheel radius, both mounting angles and the transform coefficient stay as they were. -/
theorem calXY_effect (s : Location ℝ) (e0 e1 h : ℝ) :
    let d0 := s.r_sokuteiwheel_ * (e0 - s.old_rad0)
    let d1 := s.r_sokuteiwheel_ * (e1 - s.old_rad1)
    let dx := s.keisuu * (d0 * Real.sin s.theta1_ - d1 * Real.sin s.theta0_)
    let dy := s.keisuu * (-d0 * Real.cos s.theta1_ + d1 * Real.cos s.theta0_)
    let t := Location.calXY Real.cos Real.sin s e0 e1 h
    t.x_ = s.x_ + (dx * Real.cos h - dy * Real.sin h) ∧
    t.y_ = s.y_ + (dx * Real.sin h + dy * Real.cos h) ∧
    t.start_x = s.start_x ∧ t.start_y = s.start_y ∧
    t.coef_x_ = s.coef_x_ ∧ t.coef_y_ = s.coef_y_ ∧
    t.r_sokuteiwheel_ = s.r_sokuteiwheel_ ∧
    t.theta0_ = s.theta0_ ∧ t.theta1_ = s.theta1_ ∧ t.keisuu = s.keisuu := by
  intro d0 d1 dx dy t
  exact ⟨rfl, rfl, rfl, rfl, rfl, rfl, rfl, rfl, rfl, rfl⟩

/-- Fields of a freshly constructed tracker for mounting angles 90 and 0 degrees. -/
theorem ctor_90_0 (r : ℝ) :
    (Location.Location Real.cos Real.sin Real.pi r 90 0).theta0_ = Real.pi / 2 ∧
    (Location.Location Real.cos Real.sin Real.pi r 90 0).theta1_ = 0 ∧
    (Location.Location Real.cos Real.sin Real.pi r 90 0).keisuu = -1 := by
  refine ⟨?_, ?_, ?_⟩
  · show (90 : ℝ) * Real.pi / 180 = Real.pi / 2
    ring
  · show (0 : ℝ) * Real.pi / 180 = 0
    simp
  · show 1 / Location.keisuuDivisor Real.cos Real.sin (90 * Real.pi / 180)
      (0 * Real.pi / 180) = -1
    rw [keisuuDivisor_90_0]
    norm_num

/-- For a state with mounting angles `π/2` and `0` and transform coefficient `-1`
the body-frame displacement of wheel travels `(w0, w1)` is `(w1, w0)`. -/
theorem calXY_dx_dy_swap (s : Location ℝ) (h0 : s.theta0_ = Real.pi / 2) (h1 : s.theta1_ = 0)
    (hk : s.keisuu = -1) (w0 w1 : ℝ) :
    Location.calXY_dx Real.sin s w0 w1 = w1 ∧ Location.calXY_dy Real.cos s w0 w1 = w0 := by
  simp [Location.calXY_dx, Location.calXY_dy, h0, h1, hk]

/-- The body-frame displacement right after construction with 90 and 0 degrees. -/
theorem fresh_90_0_dx_dy_swap (r w0 w1 : ℝ) :
    Location.calXY_dx Real.sin (Location.Location Real.cos Real.sin Real.pi r 90 0) w0 w1 = w1 ∧
    Location.calXY_dy Real.cos (Location.Location Real.cos Real.sin Real.pi r 90 0) w0 w1 = w0 :=
  calXY_dx_dy_swap _ (ctor_90_0 r).1 (ctor_90_0 r).2.1 (ctor_90_0 r).2.2 w0 w1

/-- C5: for a tracker built with mounting angles 90 and 0 degrees (in any state
reachable from construction) the body-frame displacement of wheel travels
`(d0, d1)` is `(d1, d0)`, and a `calXY` call at heading 0 whose wheel travels are
`d0`, `d1` adds `d1` to `x_` and `d0` to `y_`. -/
theorem calXY_orthogonal_axis_swap (r : ℝ) (cs : List (Call ℝ)) (e0 e1 : ℝ) :
    let s := Location.run Real.cos Real.sin
      (Location.Location Real.cos Real.sin Real.pi r 90 0) cs
    let d0 := Location.calXY_d s.r_sokuteiwheel_ e0 s.old_rad0
    let d1 := Location.calXY_d s.r_sokuteiwheel_ e1 s.old_rad1
    let t := Location.calXY Real.cos Real.sin s e0 e1 0
    (t.x_ = s.x_ + d1 ∧ t.y_ = s.y_ + d0) ∧
    ∀ w0 w1 : ℝ, Location.calXY_dx Real.sin s w0 w1 = w1 ∧
      Location.calXY_dy Real.cos s w0 w1 = w0 := by
  intro s d0 d1 t
  obtain ⟨-, h0, h1, hk⟩ := run_config Real.cos Real.sin cs
    (Location.Location Real.cos Real.sin Real.pi r 90 0)
  obtain ⟨c0, c1, ck⟩ := ctor_90_0 r
  have e0' : s.theta0_ = Real.pi / 2 := h0.trans c0
  have e1' : s.theta1_ = 0 := h1.trans c1
  have ek : s.keisuu = -1 := hk.trans ck
  have swap : ∀ w0 w1 : ℝ, Location.calXY_dx Real.sin s w0 w1 = w1 ∧
      Location.calXY_dy Real.cos s w0 w1 = w0 := calXY_dx_dy_swap s e0' e1' ek
  refine ⟨⟨?_, ?_⟩, swap⟩
  · show s.x_ + (Location.calXY_dx Real.sin s d0 d1 * Real.cos 0 -
      Location.calXY_dy Real.cos s d0 d1 * Real.sin 0) = s.x_ + d1
    rw [(swap d0 d1).1, (swap d0 d1).2]
    simp
  · show s.y_ + (Location.calXY_dx Real.sin s d0 d1 * Real.sin 0 +
      Location.calXY_dy Real.cos s d0 d1 * Real.cos 0) = s.y_ + d0
    rw [(swap d0 d1).1, (swap d0 d1).2]
    simp

/-- C7, the claim fails: for mounting angles 90 and 0 degrees (radius 19) the
transform coefficient the constructor computes is not 1. -/
theorem keisuu_90_0_ne_one :
    (Location.Location Real.cos Real.sin Real.pi 19 90 0).keisuu ≠ 1 := by
  rw [(ctor_90_0 19).2.2]
  norm_num

/-- C7, amended: for mounting angles 90 and 0 degrees the divisor
`cos θ0 * sin θ1 - sin θ0 * cos θ1` is `-1` and the transform coefficient the
constructor computes is `-1`, for every wheel radius. -/
theorem keisuu_90_0_eq_neg_one (r : ℝ) :
    Location.keisuuDivisor Real.cos Real.sin (90 * Real.pi / 180) (0 * Real.pi / 180) = -1 ∧
    (Location.Location Real.cos Real.sin Real.pi r 90 0).keisuu = -1 :=
  ⟨keisuuDivisor_90_0, (ctor_90_0 r).2.2⟩

/-- C9: the field-frame increment that one `calXY` call adds to `(x_, y_)` has the
same Euclidean norm as the body-frame displacement `(dx, dy)` of that call: the
squares of the changes of `x_` and `y_` sum to `dx^2 + dy^2`, for every state,
every pair of readings and every heading. -/
theorem calXY_rotation_preserves_norm (s : Location ℝ) (e0 e1 h : ℝ) :
    let d0 := Location.calXY_d s.r_sokuteiwheel_ e0 s.old_rad0
    let d1 := Location.calXY_d s.r_sokuteiwheel_ e1 s.old_rad1
    let dx := Location.calXY_dx Real.sin s d0 d1
    let dy := Location.calXY_dy Real.cos s d0 d1
    let t := Location.calXY Real.cos Real.sin s e0 e1 h
    (t.x_ - s.x_ = dx * Real.cos h - dy * Real.sin h ∧
      t.y_ - s.y_ = dx * Real.sin h + dy * Real.cos h) ∧
    (t.x_ - s.x_) ^ 2 + (t.y_ - s.y_) ^ 2 = dx ^ 2 + dy ^ 2 := by
  intro d0 d1 dx dy t
  have hx : t.x_ - s.x_ = dx * Real.cos h - dy * Real.sin h := by
    show s.x_ + (dx * Real.cos h - dy * Real.sin h) - s.x_ = _
    ring
  have hy : t.y_ - s.y_ = dx * Real.sin h + dy * Real.cos h := by
    show s.y_ + (dx * Real.sin h + dy * Real.cos h) - s.y_ = _
    ring
  refine ⟨⟨hx, hy⟩, ?_⟩
  rw [hx, hy]
  have hcs := Real.cos_sq_add_sin_sq h
  linear_combination (dx ^ 2 + dy ^ 2) * hcs

/-- The divisor of the transform coefficient is the sine of the difference of
the mounting angles. -/
theorem keisuuDivisor_eq_sin_sub (m0 m1 : ℝ) :
    Location.keisuuDivisor Real.cos Real.sin m0 m1 = Real.sin (m1 - m0) := by
  rw [Real.sin_sub]
  unfold Location.keisuuDivisor
  ring

/-- C10: for every pair of mounting angles in degrees, with
`θ_i = degrees_i * π / 180`, the divisor `cos θ0 * sin θ1 - sin θ0 * cos θ1` is
`sin (θ1 - θ0)` and the transform coefficient the constructor computes is
`1 / sin (θ1 - θ0)`. -/
theorem keisuu_eq_one_div_sin_sub (r a0 a1 : ℝ) :
    Real.cos (a0 * Real.pi / 180) * Real.sin (a1 * Real.pi / 180) -
        Real.sin (a0 * Real.pi / 180) * Real.cos (a1 * Real.pi / 180) =
      Real.sin (a1 * Real.pi / 180 - a0 * Real.pi / 180) ∧
    (Location.Location Real.cos Real.sin Real.pi r a0 a1).keisuu =
      1 / (Real.cos (a0 * Real.pi / 180) * Real.sin (a1 * Real.pi / 180) -
        Real.sin (a0 * Real.pi / 180) * Real.cos (a1 * Real.pi / 180)) ∧
    (Location.Location Real.cos Real.sin Real.pi r a0 a1).keisuu =
      1 / Real.sin (a1 * Real.pi / 180 - a0 * Real.pi / 180) := by
  have h := keisuuDivisor_eq_sin_sub (a0 * Real.pi / 180) (a1 * Real.pi / 180)
  refine ⟨h, rfl, ?_⟩
  rw [← h]
  rfl

/-- Values of the sample scenario: radius 19, mounting angles 90 and 0 degrees,
first `calXY` call with readings `(π/4, 0)` and heading 0.  The wheel travels are
`(19π/4, 0)`, the body-frame displacement is `(0, 19π/4)` and afterwards `getX()`
returns 0 and `getY()` returns `19π/4`. -/
theorem scenario_values :
    Location.calXY_d (Location.Location Real.cos Real.sin Real.pi 19 90 0).r_sokuteiwheel_
      (Real.pi / 4) (Location.Location Real.cos Real.sin Real.pi 19 90 0).old_rad0 =
        19 * Real.pi / 4 ∧
    Location.calXY_d (Location.Location Real.cos Real.sin Real.pi 19 90 0).r_sokuteiwheel_
      0 (Location.Location Real.cos Real.sin Real.pi 19 90 0).old_rad1 = 0 ∧
    Location.calXY_dx Real.sin (Location.Location Real.cos Real.sin Real.pi 19 90 0)
      (19 * Real.pi / 4) 0 = 0 ∧
    Location.calXY_dy Real.cos (Location.Location Real.cos Real.sin Real.pi 19 90 0)
      (19 * Real.pi / 4) 0 = 19 * Real.pi / 4 ∧
    (Location.calXY Real.cos Real.sin (Location.Location Real.cos Real.sin Real.pi 19 90 0)
      (Real.pi / 4) 0 0).getX.1 = 0 ∧
    (Location.calXY Real.cos Real.sin (Location.Location Real.cos Real.sin Real.pi 19 90 0)
      (Real.pi / 4) 0 0).getY.1 = 19 * Real.pi / 4 := by
  have hd0 : Location.calXY_d
      (Location.Location Real.cos Real.sin Real.pi 19 90 0).r_sokuteiwheel_ (Real.pi / 4)
      (Location.Location Real.cos Real.sin Real.pi 19 90 0).old_rad0 = 19 * Real.pi / 4 := by
    show (19 : ℝ) * (Real.pi / 4 - 0) = 19 * Real.pi / 4
    ring
  have hd1 : Location.calXY_d
      (Location.Location Real.cos Real.sin Real.pi 19 90 0).r_sokuteiwheel_ 0
      (Location.Location Real.cos Real.sin Real.pi 19 90 0).old_rad1 = 0 := by
    show (19 : ℝ) * (0 - 0) = 0
    ring
  have hswap := (fresh_90_0_dx_dy_swap 19 (19 * Real.pi / 4) 0)
  refine ⟨hd0, hd1, hswap.1, hswap.2, ?_, ?_⟩
  · show (0 : ℝ) + (0 + (Location.calXY_dx Real.sin _ _ _ * Real.cos 0 -
      Location.calXY_dy Real.cos _ _ _ * Real.sin 0)) * 1 = 0
    rw [hd0, hd1, hswap.1, hswap.2]
    simp
  · show (0 : ℝ) + (0 + (Location.calXY_dx Real.sin _ _ _ * Real.sin 0 +
      Location.calXY_dy Real.cos _ _ _ * Real.cos 0)) * 1 = 19 * Real.pi / 4
    rw [hd0, hd1, hswap.1, hswap.2]
    simp

/-- Decimal bounds of `19π/4`. -/
theorem nineteen_pi_div_four_bounds :
    (14.922 : ℝ) < 19 * Real.pi / 4 ∧ 19 * Real.pi / 4 < (14.923 : ℝ) := by
  have h1 := Real.pi_gt_d6
  have h2 := Real.pi_lt_d6
  constructor
  · linarith
  · linarith

/-- C6, the claim fails: in the scenario (radius 19, mounting angles 90 and 0
degrees, first `calXY` call with readings `(π/4, 0)` and heading 0) neither the
body-frame `dy` nor `getY()` afterwards is `-(19π/4)`. -/
theorem scenario_dy_getY_not_negative :
    Location.calXY_dy Real.cos (Location.Location Real.cos Real.sin Real.pi 19 90 0)
      (19 * Real.pi / 4) 0 ≠ -(19 * Real.pi / 4) ∧
    (Location.calXY Real.cos Real.sin (Location.Location Real.cos Real.sin Real.pi 19 90 0)
      (Real.pi / 4) 0 0).getY.1 ≠ -(19 * Real.pi / 4) := by
  obtain ⟨-, -, -, hdy, -, hy⟩ := scenario_values
  have hpos := nineteen_pi_div_four_bounds.1
  rw [hdy, hy]
  constructor
  · intro h
    linarith
  · intro h
    linarith

/-- C6, amended: in the scenario (radius 19, mounting angles 90 and 0 degrees,
default origin and calibration, last-seen encoder angles 0, first `calXY` call
with readings `(π/4, 0)` and heading 0) the wheel travels are `d0 = 19π/4` and
`d1 = 0`, the body-frame displacement is `dx = 0`, `dy = +19π/4`, and afterwards
`getX() = 0` and `getY() = +19π/4`, which lies between 14.922 and 14.923. -/
theorem scenario_first_update :
    ((Location.Location Real.cos Real.sin Real.pi 19 90 0).start_x = 0 ∧
      (Location.Location Real.cos Real.sin Real.pi 19 90 0).start_y = 0 ∧
      (Location.Location Real.cos Real.sin Real.pi 19 90 0).coef_x_ = 1 ∧
      (Location.Location Real.cos Real.sin Real.pi 19 90 0).coef_y_ = 1 ∧
      (Location.Location Real.cos Real.sin Real.pi 19 90 0).old_rad0 = 0 ∧
      (Location.Location Real.cos Real.sin Real.pi 19 90 0).old_rad1 = 0) ∧
    (Location.calXY_d (Location.Location Real.cos Real.sin Real.pi 19 90 0).r_sokuteiwheel_
      (Real.pi / 4) (Location.Location Real.cos Real.sin Real.pi 19 90 0).old_rad0 =
        19 * Real.pi / 4 ∧
    Location.calXY_d (Location.Location Real.cos Real.sin Real.pi 19 90 0).r_sokuteiwheel_
      0 (Location.Location Real.cos Real.sin Real.pi 19 90 0).old_rad1 = 0 ∧
    Location.calXY_dx Real.sin (Location.Location Real.cos Real.sin Real.pi 19 90 0)
      (19 * Real.pi / 4) 0 = 0 ∧
    Location.calXY_dy Real.cos (Location.Location Real.cos Real.sin Real.pi 19 90 0)
      (19 * Real.pi / 4) 0 = 19 * Real.pi / 4 ∧
    (Location.calXY Real.cos Real.sin (Location.Location Real.cos Real.sin Real.pi 19 90 0)
      (Real.pi / 4) 0 0).getX.1 = 0 ∧
    (Location.calXY Real.cos Real.sin (Location.Location Real.cos Real.sin Real.pi 19 90 0)
      (Real.pi / 4) 0 0).getY.1 = 19 * Real.pi / 4) ∧
    ((14.922 : ℝ) < 19 * Real.pi / 4 ∧ 19 * Real.pi / 4 < (14.923 : ℝ)) :=
  ⟨⟨rfl, rfl, rfl, rfl, rfl, rfl⟩, scenario_values, nineteen_pi_div_four_bounds⟩

/-- C11: right after construction `getX()` and `getY()` return 0, and after any
sequence of `setStartLocation` and `setCoef` calls without a `calXY` call they
return the `x` and `y` of the most recent `setStartLocation` (0 if there is
none), whatever calibration coefficients were set. -/
theorem position_before_first_calXY (r a0 a1 : ℝ) (cs : List (Call ℝ))
    (hcs : cs.all (fun c => !c.isCalXY) = true) :
    let s := Location.run Real.cos Real.sin
      (Location.Location Real.cos Real.sin Real.pi r a0 a1) cs
    ((Location.Location Real.cos Real.sin Real.pi r a0 a1).getX.1 = 0 ∧
      (Location.Location Real.cos Real.sin Real.pi r a0 a1).getY.1 = 0) ∧
    (s.getX.1 = (specOrigin cs).1 ∧ s.getY.1 = (specOrigin cs).2) := by
  intro s
  have hstart : (s.start_x, s.start_y) = specOrigin cs :=
    run_start Real.cos Real.sin cs (Location.Location Real.cos Real.sin Real.pi r a0 a1)
  obtain ⟨hx, hy⟩ := run_accumulated_of_no_calXY Real.cos Real.sin cs
    (Location.Location Real.cos Real.sin Real.pi r a0 a1) hcs
  have hx0 : s.x_ = 0 := hx
  have hy0 : s.y_ = 0 := hy
  refine ⟨⟨?_, ?_⟩, ?_, ?_⟩
  · show (0 : ℝ) + 0 * 1 = 0
    ring
  · show (0 : ℝ) + 0 * 1 = 0
    ring
  · show s.start_x + s.x_ * s.coef_x_ = (specOrigin cs).1
    rw [← hstart, hx0]
    ring
  · show s.start_y + s.y_ * s.coef_y_ = (specOrigin cs).2
    rw [← hstart, hy0]
    ring

/-- Witness of C11: the origin and calibration calls of the sample program of
Location.h (lines 56-57), made on a tracker with radius 19 and mounting angles
90 and 0 degrees; the reported position is `(250, 250)`. -/
theorem position_before_first_calXY_witness :
    [Call.setStartLocation (250 : ℝ) 250, Call.setCoef 1 1.1].all
      (fun c => !c.isCalXY) = true ∧
    ((Location.run Real.cos Real.sin (Location.Location Real.cos Real.sin Real.pi 19 90 0)
        [Call.setStartLocation (250 : ℝ) 250, Call.setCoef 1 1.1]).getX.1 = 250 ∧
     (Location.run Real.cos Real.sin (Location.Location Real.cos Real.sin Real.pi 19 90 0)
        [Call.setStartLocation (250 : ℝ) 250, Call.setCoef 1 1.1]).getY.1 = 250) :=
  ⟨rfl, (position_before_first_calXY 19 90 0
    [Call.setStartLocation (250 : ℝ) 250, Call.setCoef 1 1.1] rfl).2⟩

/-- C12: `setStartLocation(x, y)` overwrites only `start_x`, `start_y` and
`setCoef(cx, cy)` overwrites only `coef_x_`, `coef_y_`; every other field (the
accumulated displacement, the last-seen encoder angles, the wheel radius, the
mounting angles, the transform coefficient and the other call's pair) keeps its
value.  After `setStartLocation(x, y)` `getX()` returns `x + x_ * coef_x_` and
`getY()` returns `y + y_ * coef_y_` with `x_`, `y_` as before the call. -/
theorem setStartLocation_setCoef_frame (s : Location ℝ) (x y cx cy : ℝ) :
    (let t := Location.setStartLocation s x y
     (t.start_x = x ∧ t.start_y = y) ∧
     (t.x_ = s.x_ ∧ t.y_ = s.y_ ∧ t.coef_x_ = s.coef_x_ ∧ t.coef_y_ = s.coef_y_ ∧
      t.old_rad0 = s.old_rad0 ∧ t.old_rad1 = s.old_rad1 ∧
      t.r_sokuteiwheel_ = s.r_sokuteiwheel_ ∧ t.theta0_ = s.theta0_ ∧
      t.theta1_ = s.theta1_ ∧ t.keisuu = s.keisuu) ∧
     (t.getX.1 = x + s.x_ * s.coef_x_ ∧ t.getY.1 = y + s.y_ * s.coef_y_)) ∧
    (let u := Location.setCoef s cx cy
     (u.coef_x_ = cx ∧ u.coef_y_ = cy) ∧
     (u.x_ = s.x_ ∧ u.y_ = s.y_ ∧ u.start_x = s.start_x ∧ u.start_y = s.start_y ∧
      u.old_rad0 = s.old_rad0 ∧ u.old_rad1 = s.old_rad1 ∧
      u.r_sokuteiwheel_ = s.r_sokuteiwheel_ ∧ u.theta0_ = s.theta0_ ∧
      u.theta1_ = s.theta1_ ∧ u.keisuu = s.keisuu)) := by
  constructor
  · intro t
    exact ⟨⟨rfl, rfl⟩, ⟨rfl, rfl, rfl, rfl, rfl, rfl, rfl, rfl, rfl, rfl⟩, ⟨rfl, rfl⟩⟩
  · intro u
    exact ⟨⟨rfl, rfl⟩, ⟨rfl, rfl, rfl, rfl, rfl, rfl, rfl, rfl, rfl, rfl⟩⟩

/-- C13: in every state reachable from construction `old_rad[0]`, `old_rad[1]`
are the two encoder readings of the most recent `calXY` call, `(0, 0)` if there
was none; so a `calXY` call made in that state with readings `(e0, e1)` uses the
wheel travels `radius * (e_i - previous reading_i)`, the previous readings being
those of the preceding `calXY` call or 0 for the first call, and it leaves
`(e0, e1)` in `old_rad`. -/
theorem old_rad_is_last_reading (r a0 a1 : ℝ) (cs : List (Call ℝ)) (e0 e1 h : ℝ) :
    let s := Location.run Real.cos Real.sin
      (Location.Location Real.cos Real.sin Real.pi r a0 a1) cs
    let t := Location.calXY Real.cos Real.sin s e0 e1 h
    (s.old_rad0, s.old_rad1) = specLastReadings cs ∧
    (Location.calXY_d s.r_sokuteiwheel_ e0 s.old_rad0 = r * (e0 - (specLastReadings cs).1) ∧
      Location.calXY_d s.r_sokuteiwheel_ e1 s.old_rad1 = r * (e1 - (specLastReadings cs).2)) ∧
    (t.old_rad0, t.old_rad1) = (e0, e1) ∧
    specLastReadings (cs ++ [Call.calXY e0 e1 h]) = (e0, e1) := by
  intro s t
  have hold : (s.old_rad0, s.old_rad1) = specLastReadings cs :=
    run_old_rad Real.cos Real.sin cs (Location.Location Real.cos Real.sin Real.pi r a0 a1)
  have hr : s.r_sokuteiwheel_ = r :=
    (run_config Real.cos Real.sin cs
      (Location.Location Real.cos Real.sin Real.pi r a0 a1)).1
  refine ⟨hold, ⟨?_, ?_⟩, rfl, ?_⟩
  · rw [← hold, hr]
    rfl
  · rw [← hold, hr]
    rfl
  · simp [specLastReadings, List.filterMap_append, Call.readings?]

/-- Mounting angles, in radians, and transform coefficient of a tracker in a
state reachable from construction with the angles `a0`, `a1` in degrees. -/
theorem run_ctor_config (r a0 a1 : ℝ) (cs : List (Call ℝ)) :
    (Location.run Real.cos Real.sin
      (Location.Location Real.cos Real.sin Real.pi r a0 a1) cs).theta0_ =
        a0 * Real.pi / 180 ∧
    (Location.run Real.cos Real.sin
      (Location.Location Real.cos Real.sin Real.pi r a0 a1) cs).theta1_ =
        a1 * Real.pi / 180 ∧
    (Location.run Real.cos Real.sin
      (Location.Location Real.cos Real.sin Real.pi r a0 a1) cs).keisuu =
        1 / Location.keisuuDivisor Real.cos Real.sin (a0 * Real.pi / 180)
          (a1 * Real.pi / 180) := by
  obtain ⟨-, h0, h1, hk⟩ := run_config Real.cos Real.sin cs
    (Location.Location Real.cos Real.sin Real.pi r a0 a1)
  exact ⟨h0, h1, hk⟩

/-- C16: for mounting angles with a non-zero divisor and every pair of wheel
travels `(d0, d1)`, a tracker built with the angles exchanged and fed the
travels exchanged computes the same body-frame displacement `(dx, dy)` in
`calXY`, while its transform coefficient is the negative of the other's (and
not zero). -/
theorem calXY_wheel_exchange_symmetry (r r2 a0 a1 : ℝ) (cs cs2 : List (Call ℝ))
    (hdiv : Location.keisuuDivisor Real.cos Real.sin (a0 * Real.pi / 180)
      (a1 * Real.pi / 180) ≠ 0) (d0 d1 : ℝ) :
    let s := Location.run Real.cos Real.sin
      (Location.Location Real.cos Real.sin Real.pi r a0 a1) cs
    let s2 := Location.run Real.cos Real.sin
      (Location.Location Real.cos Real.sin Real.pi r2 a1 a0) cs2
    (Location.calXY_dx Real.sin s2 d1 d0 = Location.calXY_dx Real.sin s d0 d1 ∧
      Location.calXY_dy Real.cos s2 d1 d0 = Location.calXY_dy Real.cos s d0 d1) ∧
    (s2.keisuu = -s.keisuu ∧ s.keisuu ≠ 0) := by
  intro s s2
  obtain ⟨e0, e1, ek⟩ := run_ctor_config r a0 a1 cs
  obtain ⟨f0, f1, fk⟩ := run_ctor_config r2 a1 a0 cs2
  have hs0 : s.theta0_ = a0 * Real.pi / 180 := e0
  have hs1 : s.theta1_ = a1 * Real.pi / 180 := e1
  have hsk : s.keisuu = 1 / Location.keisuuDivisor Real.cos Real.sin (a0 * Real.pi / 180)
      (a1 * Real.pi / 180) := ek
  have ht0 : s2.theta0_ = a1 * Real.pi / 180 := f0
  have ht1 : s2.theta1_ = a0 * Real.pi / 180 := f1
  have htk : s2.keisuu = 1 / Location.keisuuDivisor Real.cos Real.sin (a1 * Real.pi / 180)
      (a0 * Real.pi / 180) := fk
  have hneg : Location.keisuuDivisor Real.cos Real.sin (a1 * Real.pi / 180)
      (a0 * Real.pi / 180) = -Location.keisuuDivisor Real.cos Real.sin (a0 * Real.pi / 180)
      (a1 * Real.pi / 180) := by
    unfold Location.keisuuDivisor
    ring
  have hk : s2.keisuu = -s.keisuu := by
    rw [htk, hsk, hneg]
    field_simp
  have hk0 : s.keisuu ≠ 0 := by
    rw [hsk]
    exact one_div_ne_zero hdiv
  refine ⟨⟨?_, ?_⟩, hk, hk0⟩
  · show s2.keisuu * (d1 * Real.sin s2.theta1_ - d0 * Real.sin s2.theta0_) =
      s.keisuu * (d0 * Real.sin s.theta1_ - d1 * Real.sin s.theta0_)
    rw [hk, hs0, hs1, ht0, ht1]
    ring
  · show s2.keisuu * (-d1 * Real.cos s2.theta1_ + d0 * Real.cos s2.theta0_) =
      s.keisuu * (-d0 * Real.cos s.theta1_ + d1 * Real.cos s.theta0_)
    rw [hk, hs0, hs1, ht0, ht1]
    ring

/-- Witness of C16: mounting angles 90 and 0 degrees against 0 and 90 degrees,
radius 19, wheel travels `(3, 4)` against `(4, 3)`. -/
theorem calXY_wheel_exchange_symmetry_witness :
    Location.keisuuDivisor Real.cos Real.sin (90 * Real.pi / 180) (0 * Real.pi / 180) ≠ 0 ∧
    (Location.calXY_dx Real.sin (Location.run Real.cos Real.sin
        (Location.Location Real.cos Real.sin Real.pi 19 0 90) []) 4 3 =
      Location.calXY_dx Real.sin (Location.run Real.cos Real.sin
        (Location.Location Real.cos Real.sin Real.pi 19 90 0) []) 3 4 ∧
     Location.calXY_dy Real.cos (Location.run Real.cos Real.sin
        (Location.Location Real.cos Real.sin Real.pi 19 0 90) []) 4 3 =
      Location.calXY_dy Real.cos (Location.run Real.cos Real.sin
        (Location.Location Real.cos Real.sin Real.pi 19 90 0) []) 3 4) :=
  ⟨by rw [keisuuDivisor_90_0]; norm_num,
   (calXY_wheel_exchange_symmetry 19 19 90 0 [] []
      (by rw [keisuuDivisor_90_0]; norm_num) 3 4).1⟩

/-- C17: in every state reachable from construction and for every pair of
wheel travels `(d0, d1)` the body-frame displacement of `calXY` satisfies
`dx^2 + dy^2 = keisuu^2 * (d0^2 + d1^2 - 2 d0 d1 cos (θ1 - θ0))`; when the
mounting angles differ by an odd multiple of 90 degrees, `keisuu^2 = 1` and
`dx^2 + dy^2 = d0^2 + d1^2`. -/
theorem calXY_displacement_norm (r a0 a1 : ℝ) (cs : List (Call ℝ)) (d0 d1 : ℝ) :
    let s := Location.run Real.cos Real.sin
      (Location.Location Real.cos Real.sin Real.pi r a0 a1) cs
    let dx := Location.calXY_dx Real.sin s d0 d1
    let dy := Location.calXY_dy Real.cos s d0 d1
    dx ^ 2 + dy ^ 2 = s.keisuu ^ 2 *
      (d0 ^ 2 + d1 ^ 2 - 2 * d0 * d1 * Real.cos (s.theta1_ - s.theta0_)) ∧
    ∀ n : ℤ, a1 - a0 = 90 * (2 * n + 1) →
      s.keisuu ^ 2 = 1 ∧ dx ^ 2 + dy ^ 2 = d0 ^ 2 + d1 ^ 2 := by
  intro s dx dy
  have hgen : dx ^ 2 + dy ^ 2 = s.keisuu ^ 2 *
      (d0 ^ 2 + d1 ^ 2 - 2 * d0 * d1 * Real.cos (s.theta1_ - s.theta0_)) := by
    show (s.keisuu * (d0 * Real.sin s.theta1_ - d1 * Real.sin s.theta0_)) ^ 2 +
      (s.keisuu * (-d0 * Real.cos s.theta1_ + d1 * Real.cos s.theta0_)) ^ 2 = _
    rw [Real.cos_sub]
    have c0 := Real.cos_sq_add_sin_sq s.theta0_
    have c1 := Real.cos_sq_add_sin_sq s.theta1_
    linear_combination (s.keisuu ^ 2 * d1 ^ 2) * c0 + (s.keisuu ^ 2 * d0 ^ 2) * c1
  refine ⟨hgen, ?_⟩
  intro n hn
  obtain ⟨e0, e1, ek⟩ := run_ctor_config r a0 a1 cs
  have hs0 : s.theta0_ = a0 * Real.pi / 180 := e0
  have hs1 : s.theta1_ = a1 * Real.pi / 180 := e1
  have hsk : s.keisuu = 1 / Location.keisuuDivisor Real.cos Real.sin (a0 * Real.pi / 180)
      (a1 * Real.pi / 180) := ek
  have hdiff : s.theta1_ - s.theta0_ = (2 * n + 1) * Real.pi / 2 := by
    rw [hs0, hs1]
    linear_combination (Real.pi / 180) * hn
  have hcos : Real.cos (s.theta1_ - s.theta0_) = 0 :=
    Real.cos_eq_zero_iff.mpr ⟨n, hdiff⟩
  have hsin : Real.sin (s.theta1_ - s.theta0_) ^ 2 = 1 := by
    have h := Real.cos_sq_add_sin_sq (s.theta1_ - s.theta0_)
    rw [hcos] at h
    linarith
  have hk2 : s.keisuu ^ 2 = 1 := by
    rw [hsk, keisuuDivisor_eq_sin_sub, ← hs0, ← hs1, one_div, inv_pow, hsin, inv_one]
  refine ⟨hk2, ?_⟩
  rw [hgen, hk2, hcos]
  ring

/-- Witness of C17: mounting angles 90 and 0 degrees (difference `90 * (2 * (-1) + 1)`),
radius 19, wheel travels `(3, 4)`. -/
theorem calXY_displacement_norm_witness :
    (0 : ℝ) - 90 = 90 * (2 * ((-1 : ℤ) : ℝ) + 1) ∧
    (Location.calXY_dx Real.sin (Location.run Real.cos Real.sin
        (Location.Location Real.cos Real.sin Real.pi 19 90 0) []) 3 4) ^ 2 +
      (Location.calXY_dy Real.cos (Location.run Real.cos Real.sin
        (Location.Location Real.cos Real.sin Real.pi 19 90 0) []) 3 4) ^ 2 =
      3 ^ 2 + 4 ^ 2 :=
  ⟨by norm_num,
   ((calXY_displacement_norm 19 90 0 [] 3 4).2 (-1) (by norm_num)).2⟩

/-! ## The arithmetic with non-finite values on finite states -/

section FiniteStates

variable {R : Type} [Field R]

theorem Flt.finite_add (x y : R) : Flt.finite x + Flt.finite y = Flt.finite (x + y) := rfl

theorem Flt.finite_sub (x y : R) : Flt.finite x - Flt.finite y = Flt.finite (x - y) := rfl

theorem Flt.finite_mul (x y : R) : Flt.finite x * Flt.finite y = Flt.finite (x * y) := rfl

theorem Flt.finite_neg (x : R) : -Flt.finite x = Flt.finite (-x) := rfl

theorem Flt.nonFinite_mul (a : Flt R) : Flt.nonFinite * a = Flt.nonFinite := rfl

theorem Flt.nonFinite_sub (a : Flt R) : Flt.nonFinite - a = Flt.nonFinite := rfl

theorem Flt.add_nonFinite (a : Flt R) : a + Flt.nonFinite = Flt.nonFinite := by
  cases a <;> rfl

theorem Flt.finite_div [DecidableEq R] (x y : R) :
    Flt.finite x / Flt.finite y = if y = 0 then Flt.nonFinite else Flt.finite (x / y) := rfl

theorem Flt.zero_eq : (0 : Flt R) = Flt.finite 0 := rfl

theorem Flt.one_eq : (1 : Flt R) = Flt.finite 1 := rfl

/-- The constant `180.0` of Location.cpp lines 28, 29 as a floating-point value. -/
theorem Flt.ofNat_180_eq : (180 : Flt R) = Flt.finite 180 :=
  congrArg Flt.finite (Nat.cast_ofNat : ((OfNat.ofNat 180 : ℕ) : R) = OfNat.ofNat 180)

/-- On a finite state and finite readings and heading, `calXY` over `Flt R`
computes what `calXY` over `R` computes. -/
theorem calXY_finiteState (cos sin : R → R) (s : Location R) (e0 e1 h : R) :
    Location.calXY (Flt.lift cos) (Flt.lift sin) (finiteState s) (Flt.finite e0)
        (Flt.finite e1) (Flt.finite h) =
      finiteState (Location.calXY cos sin s e0 e1 h) := rfl

/-- On a finite state a call with finite arguments over `Flt R` does what the
call over `R` does. -/
theorem call_finiteState (cos sin : R → R) (s : Location R) (c : Call R) :
    Location.call (Flt.lift cos) (Flt.lift sin) (finiteState s) (finiteCall c) =
      finiteState (Location.call cos sin s c) := by
  cases c <;> rfl

/-- On a finite state a sequence of calls with finite arguments over `Flt R`
does what the sequence over `R` does. -/
theorem run_finiteState (cos sin : R → R) (cs : List (Call R)) (s : Location R) :
    Location.run (Flt.lift cos) (Flt.lift sin) (finiteState s) (cs.map finiteCall) =
      finiteState (Location.run cos sin s cs) := by
  induction cs generalizing s with
  | nil => rfl
  | cons c cs ih =>
    show Location.run (Flt.lift cos) (Flt.lift sin)
        (Location.call (Flt.lift cos) (Flt.lift sin) (finiteState s) (finiteCall c))
        (cs.map finiteCall) =
      finiteState (Location.run cos sin (Location.call cos sin s c) cs)
    rw [call_finiteState, ih]

/-- The getters on a finite state return finite values, those of the getters
over `R`. -/
theorem getX_getY_finiteState (s : Location R) :
    (finiteState s).getX.1 = Flt.finite s.getX.1 ∧
    (finiteState s).getY.1 = Flt.finite s.getY.1 := ⟨rfl, rfl⟩

end FiniteStates

/-- A finite value is not the non-finite one. -/
theorem Flt.finite_ne_nonFinite {R : Type} (x : R) : Flt.finite x ≠ Flt.nonFinite := by
  intro h
  cases h

/-- Mounting angle in radians, over `Flt ℝ`, of a finite angle in degrees. -/
theorem theta_flt (a M : ℝ) :
    Flt.finite a * Flt.finite M / (180 : Flt ℝ) = Flt.finite (a * M / 180) := by
  rw [Flt.ofNat_180_eq, Flt.finite_mul, Flt.finite_div, if_neg (by norm_num)]

/-- Transform coefficient that the constructor stores, over `Flt ℝ`: non-finite
when the divisor of line 31 is zero, the finite quotient otherwise. -/
theorem ctor_keisuu_flt (cos sin : ℝ → ℝ) (M r a0 a1 : ℝ) :
    (Location.Location (Flt.lift cos) (Flt.lift sin) (Flt.finite M) (Flt.finite r)
      (Flt.finite a0) (Flt.finite a1)).keisuu =
      if Location.keisuuDivisor cos sin (a0 * M / 180) (a1 * M / 180) = 0 then Flt.nonFinite
      else Flt.finite (1 / Location.keisuuDivisor cos sin (a0 * M / 180) (a1 * M / 180)) := by
  show (1 : Flt ℝ) / Location.keisuuDivisor (Flt.lift cos) (Flt.lift sin)
    (Flt.finite a0 * Flt.finite M / 180) (Flt.finite a1 * Flt.finite M / 180) = _
  rw [theta_flt, theta_flt]
  rfl

/-- A tracker constructed from finite arguments with a non-zero divisor is, over
`Flt ℝ`, the finite state that the constructor over `ℝ` gives. -/
theorem ctor_finiteState (cos sin : ℝ → ℝ) (M r a0 a1 : ℝ)
    (hdiv : Location.keisuuDivisor cos sin (a0 * M / 180) (a1 * M / 180) ≠ 0) :
    Location.Location (Flt.lift cos) (Flt.lift sin) (Flt.finite M) (Flt.finite r)
      (Flt.finite a0) (Flt.finite a1) =
      finiteState (Location.Location cos sin M r a0 a1) := by
  have hk := ctor_keisuu_flt cos sin M r a0 a1
  rw [if_neg hdiv] at hk
  have h0 := theta_flt a0 M
  have h1 := theta_flt a1 M
  simp only [Location.Location, finiteState] at hk ⊢
  rw [hk, h0, h1]
  rfl

/-- States of a tracker built with a non-zero divisor are finite: over `Flt ℝ`
they are the states that the calls give over `ℝ`. -/
theorem trackerAfter_finiteState (cos sin : ℝ → ℝ) (M r a0 a1 : ℝ) (cs : List (Call ℝ))
    (hdiv : Location.keisuuDivisor cos sin (a0 * M / 180) (a1 * M / 180) ≠ 0) :
    trackerAfter cos sin M r a0 a1 cs =
      finiteState (Location.run cos sin (Location.Location cos sin M r a0 a1) cs) := by
  unfold trackerAfter
  rw [ctor_finiteState cos sin M r a0 a1 hdiv, run_finiteState]

theorem Flt.nonFinite_add {R : Type} [Add R] (a : Flt R) :
    Flt.nonFinite + a = Flt.nonFinite := rfl

/-- With a non-finite transform coefficient every `calXY` call leaves non-finite
values in `x_` and `y_`, whatever the readings and the heading. -/
theorem calXY_nonFinite_keisuu (cos sin : Flt ℝ → Flt ℝ) (s : Location (Flt ℝ))
    (hk : s.keisuu = Flt.nonFinite) (e0 e1 h : Flt ℝ) :
    (Location.calXY cos sin s e0 e1 h).x_ = Flt.nonFinite ∧
    (Location.calXY cos sin s e0 e1 h).y_ = Flt.nonFinite := by
  constructor
  · show s.x_ + (s.keisuu * _ * cos h - _) = Flt.nonFinite
    rw [hk, Flt.nonFinite_mul, Flt.nonFinite_mul, Flt.nonFinite_sub, Flt.add_nonFinite]
  · show s.y_ + (s.keisuu * _ * sin h + _) = Flt.nonFinite
    rw [hk, Flt.nonFinite_mul, Flt.nonFinite_mul, Flt.nonFinite_add, Flt.add_nonFinite]

/-- The divisor of line 31 is zero for two equal mounting angles, whatever the
value of `M_PI`. -/
theorem keisuuDivisor_self (cos sin : ℝ → ℝ) (m : ℝ) :
    Location.keisuuDivisor cos sin m m = 0 := by
  unfold Location.keisuuDivisor
  ring

/-- The tracker constructed with two equal finite mounting angles holds a
non-finite transform coefficient. -/
theorem ctor_equal_angles_keisuu (cos sin : ℝ → ℝ) (M r a : ℝ) :
    (Location.Location (Flt.lift cos) (Flt.lift sin) (Flt.finite M) (Flt.finite r)
      (Flt.finite a) (Flt.finite a)).keisuu = Flt.nonFinite := by
  rw [ctor_keisuu_flt, if_pos (keisuuDivisor_self cos sin _)]

/-- A `calXY` call that reads the stored encoder angles leaves `x_`, `y_` and
the values of the getters as they were, in the arithmetic of `ℝ`. -/
theorem calXY_same_readings_real (s : Location ℝ) (h : ℝ) :
    (Location.calXY Real.cos Real.sin s s.old_rad0 s.old_rad1 h).x_ = s.x_ ∧
    (Location.calXY Real.cos Real.sin s s.old_rad0 s.old_rad1 h).y_ = s.y_ ∧
    (Location.calXY Real.cos Real.sin s s.old_rad0 s.old_rad1 h).getX.1 = s.getX.1 ∧
    (Location.calXY Real.cos Real.sin s s.old_rad0 s.old_rad1 h).getY.1 = s.getY.1 := by
  have hx : (Location.calXY Real.cos Real.sin s s.old_rad0 s.old_rad1 h).x_ = s.x_ := by
    simp [Location.calXY, Location.calXY_d, Location.calXY_dx, Location.calXY_dy]
  have hy : (Location.calXY Real.cos Real.sin s s.old_rad0 s.old_rad1 h).y_ = s.y_ := by
    simp [Location.calXY, Location.calXY_d, Location.calXY_dx, Location.calXY_dy]
  refine ⟨hx, hy, ?_, ?_⟩
  · show (Location.calXY Real.cos Real.sin s s.old_rad0 s.old_rad1 h).start_x +
      (Location.calXY Real.cos Real.sin s s.old_rad0 s.old_rad1 h).x_ *
      (Location.calXY Real.cos Real.sin s s.old_rad0 s.old_rad1 h).coef_x_ = _
    rw [hx]
    rfl
  · show (Location.calXY Real.cos Real.sin s s.old_rad0 s.old_rad1 h).start_y +
      (Location.calXY Real.cos Real.sin s s.old_rad0 s.old_rad1 h).y_ *
      (Location.calXY Real.cos Real.sin s s.old_rad0 s.old_rad1 h).coef_y_ = _
    rw [hy]
    rfl

/-- C4, the claim fails: the tracker built with radius 19 and mounting angles 45
and 45 degrees holds a non-finite transform coefficient, and a first `calXY`
call that reads the stored encoder angles `(0, 0)` at heading 0 turns `x_` and
`y_` from 0 into non-finite values; `getX()` and `getY()` change with them. -/
theorem zero_motion_45_45_changes_position :
    (trackerAfter Real.cos Real.sin (M_PI_double : ℝ) 19 45 45 []).keisuu = Flt.nonFinite ∧
    ((trackerAfter Real.cos Real.sin (M_PI_double : ℝ) 19 45 45 []).old_rad0 = Flt.finite 0 ∧
      (trackerAfter Real.cos Real.sin (M_PI_double : ℝ) 19 45 45 []).old_rad1 = Flt.finite 0) ∧
    ((Location.calXY (Flt.lift Real.cos) (Flt.lift Real.sin)
        (trackerAfter Real.cos Real.sin (M_PI_double : ℝ) 19 45 45 [])
        (Flt.finite 0) (Flt.finite 0) (Flt.finite 0)).x_ ≠
        (trackerAfter Real.cos Real.sin (M_PI_double : ℝ) 19 45 45 []).x_ ∧
     (Location.calXY (Flt.lift Real.cos) (Flt.lift Real.sin)
        (trackerAfter Real.cos Real.sin (M_PI_double : ℝ) 19 45 45 [])
        (Flt.finite 0) (Flt.finite 0) (Flt.finite 0)).y_ ≠
        (trackerAfter Real.cos Real.sin (M_PI_double : ℝ) 19 45 45 []).y_) ∧
    ((Location.calXY (Flt.lift Real.cos) (Flt.lift Real.sin)
        (trackerAfter Real.cos Real.sin (M_PI_double : ℝ) 19 45 45 [])
        (Flt.finite 0) (Flt.finite 0) (Flt.finite 0)).getX.1 ≠
        (trackerAfter Real.cos Real.sin (M_PI_double : ℝ) 19 45 45 []).getX.1 ∧
     (Location.calXY (Flt.lift Real.cos) (Flt.lift Real.sin)
        (trackerAfter Real.cos Real.sin (M_PI_double : ℝ) 19 45 45 [])
        (Flt.finite 0) (Flt.finite 0) (Flt.finite 0)).getY.1 ≠
        (trackerAfter Real.cos Real.sin (M_PI_double : ℝ) 19 45 45 []).getY.1) := by
  have hk : (trackerAfter Real.cos Real.sin (M_PI_double : ℝ) 19 45 45 []).keisuu =
      Flt.nonFinite := ctor_equal_angles_keisuu Real.cos Real.sin _ 19 45
  obtain ⟨hx, hy⟩ := calXY_nonFinite_keisuu (Flt.lift Real.cos) (Flt.lift Real.sin)
    (trackerAfter Real.cos Real.sin (M_PI_double : ℝ) 19 45 45 []) hk
    (Flt.finite 0) (Flt.finite 0) (Flt.finite 0)
  have gx : (Location.calXY (Flt.lift Real.cos) (Flt.lift Real.sin)
      (trackerAfter Real.cos Real.sin (M_PI_double : ℝ) 19 45 45 [])
      (Flt.finite 0) (Flt.finite 0) (Flt.finite 0)).getX.1 = Flt.nonFinite := by
    show Flt.finite 0 + (Location.calXY (Flt.lift Real.cos) (Flt.lift Real.sin)
      (trackerAfter Real.cos Real.sin (M_PI_double : ℝ) 19 45 45 [])
      (Flt.finite 0) (Flt.finite 0) (Flt.finite 0)).x_ * Flt.finite 1 = Flt.nonFinite
    rw [hx]
    rfl
  have gy : (Location.calXY (Flt.lift Real.cos) (Flt.lift Real.sin)
      (trackerAfter Real.cos Real.sin (M_PI_double : ℝ) 19 45 45 [])
      (Flt.finite 0) (Flt.finite 0) (Flt.finite 0)).getY.1 = Flt.nonFinite := by
    show Flt.finite 0 + (Location.calXY (Flt.lift Real.cos) (Flt.lift Real.sin)
      (trackerAfter Real.cos Real.sin (M_PI_double : ℝ) 19 45 45 [])
      (Flt.finite 0) (Flt.finite 0) (Flt.finite 0)).y_ * Flt.finite 1 = Flt.nonFinite
    rw [hy]
    rfl
  refine ⟨hk, ⟨rfl, rfl⟩, ⟨?_, ?_⟩, ⟨?_, ?_⟩⟩
  · rw [hx]
    exact fun h => Flt.finite_ne_nonFinite (0 : ℝ) h.symm
  · rw [hy]
    exact fun h => Flt.finite_ne_nonFinite (0 : ℝ) h.symm
  · rw [gx]
    intro h
    have h2 : Flt.nonFinite = Flt.finite ((0 : ℝ) + 0 * 1) := h
    exact Flt.finite_ne_nonFinite _ h2.symm
  · rw [gy]
    intro h
    have h2 : Flt.nonFinite = Flt.finite ((0 : ℝ) + 0 * 1) := h
    exact Flt.finite_ne_nonFinite _ h2.symm

/-- C4, amended: in every tracker state whose members are all finite, a `calXY`
call that reads the two encoder values stored in `old_rad` (those the previous
`calXY` call read) leaves `x_`, `y_`, `getX()` and `getY()` as they were, for
every finite heading; so of two consecutive calls with the same readings the
second changes none of them.  Every state that a tracker built with a non-zero
divisor reaches by calls with finite arguments and readings is such a state. -/
theorem calXY_zero_motion_finite (s0 : Location ℝ) (e0 e1 h h2 : ℝ)
    (M r a0 a1 : ℝ) (cs : List (Call ℝ)) :
    (let s := finiteState s0
     let t := Location.calXY (Flt.lift Real.cos) (Flt.lift Real.sin) s s.old_rad0 s.old_rad1
       (Flt.finite h)
     t.x_ = s.x_ ∧ t.y_ = s.y_ ∧ t.getX.1 = s.getX.1 ∧ t.getY.1 = s.getY.1) ∧
    (let u := Location.calXY (Flt.lift Real.cos) (Flt.lift Real.sin) (finiteState s0)
       (Flt.finite e0) (Flt.finite e1) (Flt.finite h)
     let v := Location.calXY (Flt.lift Real.cos) (Flt.lift Real.sin) u
       (Flt.finite e0) (Flt.finite e1) (Flt.finite h2)
     v.x_ = u.x_ ∧ v.y_ = u.y_ ∧ v.getX.1 = u.getX.1 ∧ v.getY.1 = u.getY.1) ∧
    (Location.keisuuDivisor Real.cos Real.sin (a0 * M / 180) (a1 * M / 180) ≠ 0 →
      trackerAfter Real.cos Real.sin M r a0 a1 cs =
        finiteState (Location.run Real.cos Real.sin
          (Location.Location Real.cos Real.sin M r a0 a1) cs)) := by
  have key : ∀ (w : Location ℝ) (k : ℝ),
      (Location.calXY (Flt.lift Real.cos) (Flt.lift Real.sin) (finiteState w)
          (finiteState w).old_rad0 (finiteState w).old_rad1 (Flt.finite k)).x_ =
        (finiteState w).x_ ∧
      (Location.calXY (Flt.lift Real.cos) (Flt.lift Real.sin) (finiteState w)
          (finiteState w).old_rad0 (finiteState w).old_rad1 (Flt.finite k)).y_ =
        (finiteState w).y_ ∧
      (Location.calXY (Flt.lift Real.cos) (Flt.lift Real.sin) (finiteState w)
          (finiteState w).old_rad0 (finiteState w).old_rad1 (Flt.finite k)).getX.1 =
        (finiteState w).getX.1 ∧
      (Location.calXY (Flt.lift Real.cos) (Flt.lift Real.sin) (finiteState w)
          (finiteState w).old_rad0 (finiteState w).old_rad1 (Flt.finite k)).getY.1 =
        (finiteState w).getY.1 := by
    intro w k
    obtain ⟨hx, hy, gx, gy⟩ := calXY_same_readings_real w k
    have hc : Location.calXY (Flt.lift Real.cos) (Flt.lift Real.sin) (finiteState w)
        (finiteState w).old_rad0 (finiteState w).old_rad1 (Flt.finite k) =
        finiteState (Location.calXY Real.cos Real.sin w w.old_rad0 w.old_rad1 k) :=
      calXY_finiteState Real.cos Real.sin w w.old_rad0 w.old_rad1 k
    rw [hc]
    exact ⟨congrArg Flt.finite hx, congrArg Flt.finite hy, congrArg Flt.finite gx,
      congrArg Flt.finite gy⟩
  refine ⟨key s0 h, ?_, trackerAfter_finiteState Real.cos Real.sin M r a0 a1 cs⟩
  intro u v
  have hu : u = finiteState (Location.calXY Real.cos Real.sin s0 e0 e1 h) :=
    calXY_finiteState Real.cos Real.sin s0 e0 e1 h
  have hv := key (Location.calXY Real.cos Real.sin s0 e0 e1 h) h2
  rw [← hu] at hv
  exact hv

/-- Witness of C4 as amended: the tracker with radius 19 and mounting angles 90
and 0 degrees (divisor `-1`) after one `calXY` call with readings `(1, 2)` is a
finite state. -/
theorem calXY_zero_motion_finite_witness :
    Location.keisuuDivisor Real.cos Real.sin (90 * Real.pi / 180) (0 * Real.pi / 180) ≠ 0 ∧
    trackerAfter Real.cos Real.sin Real.pi 19 90 0 [Call.calXY 1 2 0] =
      finiteState (Location.run Real.cos Real.sin
        (Location.Location Real.cos Real.sin Real.pi 19 90 0) [Call.calXY 1 2 0]) :=
  ⟨by rw [keisuuDivisor_90_0]; norm_num,
   (calXY_zero_motion_finite (Location.Location Real.cos Real.sin Real.pi 19 90 0) 1 2 0 0
      Real.pi 19 90 0 [Call.calXY 1 2 0]).2.2 (by rw [keisuuDivisor_90_0]; norm_num)⟩

/-- C15, the claim fails: on the tracker built with radius 19 and mounting
angles 45 and 45 degrees, the two `calXY` calls with heading 1 and readings
`(1, 2)`, then `(0, 0)`, end with the starting last-seen angles `(0, 0)` as final
readings, but `x_` and `y_` are not what they were: they went from 0 to
non-finite values. -/
theorem constant_heading_45_45_changes_position :
    ((trackerAfter Real.cos Real.sin (M_PI_double : ℝ) 19 45 45 []).old_rad0 = Flt.finite 0 ∧
      (trackerAfter Real.cos Real.sin (M_PI_double : ℝ) 19 45 45 []).old_rad1 = Flt.finite 0) ∧
    (trackerAfter Real.cos Real.sin (M_PI_double : ℝ) 19 45 45
        (calXYCalls 1 [(1, 2), (0, 0)])).x_ ≠
      (trackerAfter Real.cos Real.sin (M_PI_double : ℝ) 19 45 45 []).x_ ∧
    (trackerAfter Real.cos Real.sin (M_PI_double : ℝ) 19 45 45
        (calXYCalls 1 [(1, 2), (0, 0)])).y_ ≠
      (trackerAfter Real.cos Real.sin (M_PI_double : ℝ) 19 45 45 []).y_ := by
  have hk : (Location.calXY (Flt.lift Real.cos) (Flt.lift Real.sin)
      (trackerAfter Real.cos Real.sin (M_PI_double : ℝ) 19 45 45 [])
      (Flt.finite 1) (Flt.finite 2) (Flt.finite 1)).keisuu = Flt.nonFinite :=
    ctor_equal_angles_keisuu Real.cos Real.sin _ 19 45
  obtain ⟨hx, hy⟩ := calXY_nonFinite_keisuu (Flt.lift Real.cos) (Flt.lift Real.sin) _ hk
    (Flt.finite 0) (Flt.finite 0) (Flt.finite 1)
  have hx2 : (trackerAfter Real.cos Real.sin (M_PI_double : ℝ) 19 45 45
      (calXYCalls 1 [(1, 2), (0, 0)])).x_ = Flt.nonFinite := hx
  have hy2 : (trackerAfter Real.cos Real.sin (M_PI_double : ℝ) 19 45 45
      (calXYCalls 1 [(1, 2), (0, 0)])).y_ = Flt.nonFinite := hy
  refine ⟨⟨rfl, rfl⟩, ?_, ?_⟩
  · rw [hx2]
    exact fun h => Flt.finite_ne_nonFinite (0 : ℝ) h.symm
  · rw [hy2]
    exact fun h => Flt.finite_ne_nonFinite (0 : ℝ) h.symm

/-- C15, amended: from every tracker state whose members are all finite, a
non-empty sequence of `calXY` calls that all use the finite heading `h` (with
finite readings) changes `(x_, y_)` by what a single `calXY(h)` call from the
starting state reading the final readings changes them, whatever the readings
in between; if the final readings are the starting last-seen angles, `(x_, y_)`
is unchanged.  Every state that a tracker built with a non-zero divisor reaches
by calls with finite arguments and readings is such a state. -/
theorem calXY_constant_heading_path_independent_finite (s0 : Location ℝ) (h : ℝ)
    (es : List (ℝ × ℝ)) (hne : es ≠ []) (M r a0 a1 : ℝ) (cs : List (Call ℝ)) :
    (let s := finiteState s0
     let t := Location.run (Flt.lift Real.cos) (Flt.lift Real.sin) s
       ((calXYCalls h es).map finiteCall)
     let u := Location.calXY (Flt.lift Real.cos) (Flt.lift Real.sin) s
       (Flt.finite (es.getLast hne).1) (Flt.finite (es.getLast hne).2) (Flt.finite h)
     (t.x_ - s.x_ = u.x_ - s.x_ ∧ t.y_ - s.y_ = u.y_ - s.y_) ∧
     (es.getLast hne = (s0.old_rad0, s0.old_rad1) → t.x_ = s.x_ ∧ t.y_ = s.y_)) ∧
    (Location.keisuuDivisor Real.cos Real.sin (a0 * M / 180) (a1 * M / 180) ≠ 0 →
      trackerAfter Real.cos Real.sin M r a0 a1 cs =
        finiteState (Location.run Real.cos Real.sin
          (Location.Location Real.cos Real.sin M r a0 a1) cs)) := by
  refine ⟨?_, trackerAfter_finiteState Real.cos Real.sin M r a0 a1 cs⟩
  intro s t u
  have ht : t = finiteState (Location.calXY Real.cos Real.sin s0 (es.getLast hne).1
      (es.getLast hne).2 h) := by
    show Location.run (Flt.lift Real.cos) (Flt.lift Real.sin) (finiteState s0)
      ((calXYCalls h es).map finiteCall) = _
    rw [run_finiteState, run_calXYCalls Real.cos Real.sin h es hne s0]
  have hu : u = finiteState (Location.calXY Real.cos Real.sin s0 (es.getLast hne).1
      (es.getLast hne).2 h) :=
    calXY_finiteState Real.cos Real.sin s0 _ _ h
  have htu : t = u := ht.trans hu.symm
  refine ⟨⟨by rw [htu], by rw [htu]⟩, ?_⟩
  intro hlast
  have h0 : (es.getLast hne).1 = s0.old_rad0 := by rw [hlast]
  have h1 : (es.getLast hne).2 = s0.old_rad1 := by rw [hlast]
  obtain ⟨hx, hy, -, -⟩ := calXY_same_readings_real s0 h
  rw [ht, h0, h1]
  exact ⟨congrArg Flt.finite hx, congrArg Flt.finite hy⟩

/-- Witness of C15 as amended: a fresh tracker (radius 19, mounting angles 90 and
0 degrees, divisor `-1`), heading 1, readings `(1, 2)`, `(3, 5)`, then `(0, 0)`
again: the accumulated displacement is back at its starting value. -/
theorem calXY_constant_heading_path_independent_finite_witness :
    ([((1 : ℝ), (2 : ℝ)), (3, 5), (0, 0)] ≠ [] ∧
      [((1 : ℝ), (2 : ℝ)), (3, 5), (0, 0)].getLast (List.cons_ne_nil _ _) =
        ((Location.Location Real.cos Real.sin Real.pi 19 90 0).old_rad0,
          (Location.Location Real.cos Real.sin Real.pi 19 90 0).old_rad1)) ∧
    ((Location.run (Flt.lift Real.cos) (Flt.lift Real.sin)
        (finiteState (Location.Location Real.cos Real.sin Real.pi 19 90 0))
        ((calXYCalls 1 [((1 : ℝ), (2 : ℝ)), (3, 5), (0, 0)]).map finiteCall)).x_ =
        (finiteState (Location.Location Real.cos Real.sin Real.pi 19 90 0)).x_ ∧
     (Location.run (Flt.lift Real.cos) (Flt.lift Real.sin)
        (finiteState (Location.Location Real.cos Real.sin Real.pi 19 90 0))
        ((calXYCalls 1 [((1 : ℝ), (2 : ℝ)), (3, 5), (0, 0)]).map finiteCall)).y_ =
        (finiteState (Location.Location Real.cos Real.sin Real.pi 19 90 0)).y_) :=
  ⟨⟨List.cons_ne_nil _ _, rfl⟩,
   (calXY_constant_heading_path_independent_finite
      (Location.Location Real.cos Real.sin Real.pi 19 90 0) 1
      [((1 : ℝ), (2 : ℝ)), (3, 5), (0, 0)] (List.cons_ne_nil _ _) Real.pi 19 90 0 []).1.2 rfl⟩

/-- C8, the claim fails: constructing a tracker with radius 19 and mounting
angles 45 and 45 degrees is not rejected; the divisor of line 31 is zero and the
constructed tracker holds a non-finite transform coefficient. -/
theorem construct_45_45_not_rejected :
    constructOutcome (Flt.lift Real.cos) (Flt.lift Real.sin) (Flt.finite (M_PI_double : ℝ))
      (Flt.finite 19) (Flt.finite 45) (Flt.finite 45) ≠ none ∧
    Location.keisuuDivisor Real.cos Real.sin (45 * (M_PI_double : ℝ) / 180)
      (45 * (M_PI_double : ℝ) / 180) = 0 ∧
    (Location.Location (Flt.lift Real.cos) (Flt.lift Real.sin) (Flt.finite (M_PI_double : ℝ))
      (Flt.finite 19) (Flt.finite 45) (Flt.finite 45)).keisuu = Flt.nonFinite :=
  ⟨by simp [constructOutcome], keisuuDivisor_self Real.cos Real.sin _,
    ctor_equal_angles_keisuu Real.cos Real.sin _ 19 45⟩

/-- C8, amended: construction is never rejected.  For every finite value of
`M_PI`, every finite wheel radius and every pair of finite mounting angles the
constructor ends with a constructed tracker; its transform coefficient is
non-finite exactly when the divisor of line 31 is zero, which is the case for
two equal mounting angles (45 and 45 degrees for instance). -/
theorem construct_never_rejects (M r a0 a1 : ℝ) :
    constructOutcome (Flt.lift Real.cos) (Flt.lift Real.sin) (Flt.finite M) (Flt.finite r)
        (Flt.finite a0) (Flt.finite a1) =
      some (Location.Location (Flt.lift Real.cos) (Flt.lift Real.sin) (Flt.finite M)
        (Flt.finite r) (Flt.finite a0) (Flt.finite a1)) ∧
    ((Location.Location (Flt.lift Real.cos) (Flt.lift Real.sin) (Flt.finite M)
        (Flt.finite r) (Flt.finite a0) (Flt.finite a1)).keisuu = Flt.nonFinite ↔
      Location.keisuuDivisor Real.cos Real.sin (a0 * M / 180) (a1 * M / 180) = 0) ∧
    (Location.keisuuDivisor Real.cos Real.sin (a0 * M / 180) (a0 * M / 180) = 0 ∧
      (Location.Location (Flt.lift Real.cos) (Flt.lift Real.sin) (Flt.finite M)
        (Flt.finite r) (Flt.finite a0) (Flt.finite a0)).keisuu = Flt.nonFinite) := by
  refine ⟨rfl, ?_, keisuuDivisor_self Real.cos Real.sin _,
    ctor_equal_angles_keisuu Real.cos Real.sin M r a0⟩
  rw [ctor_keisuu_flt]
  constructor
  · intro h
    by_contra hne
    rw [if_neg hne] at h
    exact Flt.finite_ne_nonFinite _ h
  · intro h
    rw [if_pos h]

